import Mathlib

/-!
Shallow embedding of the CloudForge server: the in-memory project store
(`server/storage.ts`, class `MemStorage`) and the REST request handlers
registered in `registerRoutes` (`server/routes.ts`), together with the
multer upload configuration and the static infrastructure-template
generators.  JSON values appearing in request bodies are modelled by
`JVal`/`JObj`; JavaScript `undefined`/`null` are both modelled by
`Option.none`.  Nondeterministic inputs of the code (`new Date()`,
`Math.random()`) are passed as explicit oracle arguments.
-/

namespace CloudForge

/-- JSON primitive values, used for the free-form `configuration` object. -/
inductive JVal where
  | jstr (s : String)
  | jnum (n : Int)
  | jbool (b : Bool)
  | jnull
deriving Repr, DecidableEq

/-- A JSON object: association list from keys to primitive values. -/
abbrev JObj := List (String × JVal)

/-- Value supplied for `uploadedFiles` in a create request body: either a
JSON array of strings, or any non-array JSON value (the code only tests
`Array.isArray`). -/
inductive UploadedFilesVal where
  | arr (files : List String)
  | notArr
deriving Repr, DecidableEq

/-- The `Project` record stored by `MemStorage` (type `Project` inferred from
the drizzle table in `shared/schema.ts`).  `createdAt : Nat` models the
`Date` timestamp. -/
structure Project where
  id : Nat
  name : String
  description : String
  techStack : Option String
  expectedUsers : String
  uploadedFiles : Option (List String)
  configuration : Option JObj
  selectedProvider : Option String
  deploymentStatus : String
  createdAt : Nat
deriving Repr, DecidableEq

/-- The `InsertProject` value produced by `insertProjectSchema.parse`:
the picked columns of the table, with nullable/defaulted columns optional. -/
structure InsertProject where
  name : String
  description : String
  techStack : Option String
  expectedUsers : String
  uploadedFiles : Option UploadedFilesVal
  configuration : Option JObj
  selectedProvider : Option String
deriving Repr, DecidableEq

/-- JavaScript `x || null` for an optional string: `undefined`, `null` and
the empty string are all falsy, so they map to `none`. -/
def orNullStr (x : Option String) : Option String :=
  match x with
  | some s => if s = "" then none else some s
  | none => none

/-- `Partial<Project>`: every field optional; a present field overrides the
stored one under object spread (`{ ...project, ...updates }`), including a
field explicitly present with value `undefined`/`null` (modelled by an inner
`none`). -/
structure ProjectPatch where
  id : Option Nat := none
  name : Option String := none
  description : Option String := none
  techStack : Option (Option String) := none
  expectedUsers : Option String := none
  uploadedFiles : Option (Option (List String)) := none
  configuration : Option (Option JObj) := none
  selectedProvider : Option (Option String) := none
  deploymentStatus : Option String := none
  createdAt : Option Nat := none
deriving Repr, DecidableEq

/-- Object spread `{ ...project, ...updates }`. -/
def applyPatch (p : Project) (u : ProjectPatch) : Project :=
  { id := u.id.getD p.id
    name := u.name.getD p.name
    description := u.description.getD p.description
    techStack := u.techStack.getD p.techStack
    expectedUsers := u.expectedUsers.getD p.expectedUsers
    uploadedFiles := u.uploadedFiles.getD p.uploadedFiles
    configuration := u.configuration.getD p.configuration
    selectedProvider := u.selectedProvider.getD p.selectedProvider
    deploymentStatus := u.deploymentStatus.getD p.deploymentStatus
    createdAt := u.createdAt.getD p.createdAt }

/-- `Map.get`: first binding of the key, if any. -/
def mapGet (m : List (Nat × Project)) (k : Nat) : Option Project :=
  match m with
  | [] => none
  | (k', v) :: rest => if k' = k then some v else mapGet rest k

/-- `Map.set`: replace the binding in place when the key exists (JS `Map`
keeps insertion order), otherwise append a new binding at the end. -/
def mapSet (m : List (Nat × Project)) (k : Nat) (v : Project) : List (Nat × Project) :=
  match m with
  | [] => [(k, v)]
  | (k', v') :: rest => if k' = k then (k, v) :: rest else (k', v') :: mapSet rest k v

/-- The `MemStorage` state: the private `projects` map and `currentId`. -/
structure MemStorage where
  projects : List (Nat × Project)
  currentId : Nat
deriving Repr, DecidableEq

/-- The `MemStorage` constructor: empty map, `currentId = 1`. -/
def MemStorage.init : MemStorage := { projects := [], currentId := 1 }

/-- `MemStorage.getProject`. -/
def MemStorage.getProject (s : MemStorage) (id : Nat) : Option Project :=
  mapGet s.projects id

/-- `MemStorage.createProject`: assigns `id = currentId++`, normalises the
nullable fields (`techStack || null`, `Array.isArray` guard on
`uploadedFiles`, `configuration || null` — the identity on objects since any
object is truthy — and `selectedProvider || null`), hard-codes
`deploymentStatus: "pending"`, and stores the record.  `now` models
`new Date()`. -/
def MemStorage.createProject (s : MemStorage) (insertProject : InsertProject) (now : Nat) :
    Project × MemStorage :=
  let id := s.currentId
  let project : Project :=
    { id := id
      name := insertProject.name
      description := insertProject.description
      techStack := orNullStr insertProject.techStack
      expectedUsers := insertProject.expectedUsers
      uploadedFiles :=
        match insertProject.uploadedFiles with
        | some (.arr files) => some files
        | _ => none
      configuration := insertProject.configuration
      selectedProvider := orNullStr insertProject.selectedProvider
      deploymentStatus := "pending"
      createdAt := now }
  (project, { projects := mapSet s.projects id project, currentId := s.currentId + 1 })

/-- `MemStorage.updateProject`: returns `undefined` and leaves the map
untouched when the id is absent; otherwise stores and returns
`{ ...project, ...updates }`. -/
def MemStorage.updateProject (s : MemStorage) (id : Nat) (updates : ProjectPatch) :
    Option Project × MemStorage :=
  match mapGet s.projects id with
  | none => (none, s)
  | some project =>
    let updatedProject := applyPatch project updates
    (some updatedProject, { s with projects := mapSet s.projects id updatedProject })

/-- `MemStorage.getAllProjects`: `Array.from(this.projects.values())`. -/
def MemStorage.getAllProjects (s : MemStorage) : List Project :=
  s.projects.map Prod.snd

/-- First value bound to a key in a JSON object. -/
def jlookup (o : JObj) (k : String) : Option JVal :=
  match o with
  | [] => none
  | (k', v) :: rest => if k' = k then some v else jlookup rest k

/-- Zod `z.string()` applied to a looked-up field. -/
def asStr : Option JVal → Option String
  | some (.jstr s) => some s
  | _ => none

/-- Zod `z.boolean()` applied to a looked-up field. -/
def asBool : Option JVal → Option Bool
  | some (.jbool b) => some b
  | _ => none

/-- The keys of `configurationSchema` in declaration order. -/
def configurationKeys : List String :=
  ["concurrentUsers", "responseTime", "databaseType", "dataVolume", "autoBackups",
   "sslCertificate", "region", "ddosProtection", "gdprCompliance", "monitoring",
   "autoScaling", "environmentStrategy"]

/-- `configurationSchema.parse`: every declared key must be present with the
declared primitive type; unknown keys are stripped (zod default); the result
holds exactly the declared keys. -/
def parseConfiguration (body : JObj) : Option JObj := do
  let concurrentUsers ← asStr (jlookup body "concurrentUsers")
  let responseTime ← asStr (jlookup body "responseTime")
  let databaseType ← asStr (jlookup body "databaseType")
  let dataVolume ← asStr (jlookup body "dataVolume")
  let autoBackups ← asBool (jlookup body "autoBackups")
  let sslCertificate ← asStr (jlookup body "sslCertificate")
  let region ← asStr (jlookup body "region")
  let ddosProtection ← asBool (jlookup body "ddosProtection")
  let gdprCompliance ← asBool (jlookup body "gdprCompliance")
  let monitoring ← asBool (jlookup body "monitoring")
  let autoScaling ← asStr (jlookup body "autoScaling")
  let environmentStrategy ← asStr (jlookup body "environmentStrategy")
  pure [("concurrentUsers", .jstr concurrentUsers), ("responseTime", .jstr responseTime),
        ("databaseType", .jstr databaseType), ("dataVolume", .jstr dataVolume),
        ("autoBackups", .jbool autoBackups), ("sslCertificate", .jstr sslCertificate),
        ("region", .jstr region), ("ddosProtection", .jbool ddosProtection),
        ("gdprCompliance", .jbool gdprCompliance), ("monitoring", .jbool monitoring),
        ("autoScaling", .jstr autoScaling), ("environmentStrategy", .jstr environmentStrategy)]

/-- Allowed MIME types of the multer `fileFilter`. -/
def allowedTypes : List String :=
  ["image/png", "image/jpeg", "image/jpg", "application/pdf"]

/-- `limits.fileSize` of the multer configuration: 10MB. -/
def fileSizeLimit : Nat := 10 * 1024 * 1024

/-- Max file count of `upload.array('files', 5)`. -/
def maxUploadFiles : Nat := 5

/-- Metadata of one uploaded file as seen by multer. -/
structure UploadFile where
  filename : String
  mimetype : String
  size : Nat
deriving Repr, DecidableEq

/-- The `fileFilter` callback: accept exactly the allowed MIME types. -/
def fileFilterAccepts (f : UploadFile) : Bool :=
  allowedTypes.contains f.mimetype

/-- Modelled multer enforcement of the configuration above: a multipart
request passes the middleware exactly when it carries at most
`maxUploadFiles` files, each accepted by `fileFilter` and within
`limits.fileSize`. -/
def uploadMiddlewareAccepts (files : List UploadFile) : Bool :=
  files.length ≤ maxUploadFiles &&
    files.all (fun f => fileFilterAccepts f && f.size ≤ fileSizeLimit)

/-- `generateAWSTemplate` from `server/routes.ts`: one template-literal
interpolation of the project name (braces and apostrophes written as
character escapes). -/
def generateAWSTemplate (project : Project) : String :=
  "# AWS CloudFormation Template\nAWSTemplateFormatVersion: \x272010-09-09\x27\nDescription: \x27Auto-generated infrastructure for "
  ++ project.name
  ++ "\x27\n\nParameters:\n  Environment:\n    Type: String\n    Default: production\n    AllowedValues: [development, staging, production]\n\nResources:\n  # VPC Configuration\n  VPC:\n    Type: AWS::EC2::VPC\n    Properties:\n      CidrBlock: 10.0.0.0/16\n      EnableDnsHostnames: true\n      EnableDnsSupport: true\n      Tags:\n        - Key: Name\n          Value: !Sub \x27$\x7bAWS::StackName\x7d-vpc\x27\n      \n  # Application Load Balancer\n  ApplicationLoadBalancer:\n    Type: AWS::ElasticLoadBalancingV2::LoadBalancer\n    Properties:\n      Type: application\n      Scheme: internet-facing\n      SecurityGroups: [!Ref ALBSecurityGroup]\n      Subnets: [!Ref PublicSubnet1, !Ref PublicSubnet2]\n      \n  # Auto Scaling Group\n  AutoScalingGroup:\n    Type: AWS::AutoScaling::AutoScalingGroup\n    Properties:\n      MinSize: 2\n      MaxSize: 10\n      DesiredCapacity: 2\n      VPCZoneIdentifier: [!Ref PrivateSubnet1, !Ref PrivateSubnet2]\n      LaunchTemplate:\n        LaunchTemplateId: !Ref LaunchTemplate\n        Version: !GetAtt LaunchTemplate.LatestVersionNumber\n        \n  # RDS Database\n  DatabaseInstance:\n    Type: AWS::RDS::DBInstance\n    Properties:\n      DBInstanceClass: db.t3.micro\n      Engine: postgres\n      EngineVersion: 13.7\n      MultiAZ: true\n      StorageEncrypted: true\n      BackupRetentionPeriod: 7\n\nOutputs:\n  ApplicationURL:\n    Description: Application Load Balancer URL\n    Value: !Sub \x27https://$\x7bApplicationLoadBalancer.DNSName\x7d\x27\n    Export:\n      Name: !Sub \x27$\x7bAWS::StackName\x7d-ApplicationURL\x27"


/-- `generateGCPTemplate` from `server/routes.ts`. -/
def generateGCPTemplate (project : Project) : String :=
  "# Google Cloud Deployment Manager Template\nresources:\n- name: vpc-network\n  type: compute.v1.network\n  properties:\n    autoCreateSubnetworks: false\n    description: VPC network for "
  ++ project.name
  ++ "\n    \n- name: app-subnet\n  type: compute.v1.subnetwork\n  properties:\n    network: $(ref.vpc-network.selfLink)\n    ipCidrRange: 10.0.1.0/24\n    region: us-central1\n    description: Application subnet\n    \n- name: database\n  type: sqladmin.v1beta4.instance\n  properties:\n    databaseVersion: POSTGRES_13\n    region: us-central1\n    settings:\n      tier: db-custom-2-4096\n      backupConfiguration:\n        enabled: true\n        startTime: \"03:00\"\n      ipConfiguration:\n        ipv4Enabled: true\n        authorizedNetworks: []\n        \n- name: instance-template\n  type: compute.v1.instanceTemplate\n  properties:\n    properties:\n      machineType: n2-standard-2\n      disks:\n      - boot: true\n        initializeParams:\n          sourceImage: projects/debian-cloud/global/images/family/debian-11\n      networkInterfaces:\n      - network: $(ref.vpc-network.selfLink)\n        subnetwork: $(ref.app-subnet.selfLink)\n        \n- name: managed-instance-group\n  type: compute.v1.instanceGroupManager\n  properties:\n    baseInstanceName: "
  ++ project.name.toLower
  ++ "-instance\n    instanceTemplate: $(ref.instance-template.selfLink)\n    targetSize: 2\n    zone: us-central1-a"


/-- `generateAzureTemplate` from `server/routes.ts`. -/
def generateAzureTemplate (project : Project) : String :=
  "\x7b\n  \"$schema\": \"https://schema.management.azure.com/schemas/2019-04-01/deploymentTemplate.json#\",\n  \"contentVersion\": \"1.0.0.0\",\n  \"parameters\": \x7b\n    \"environment\": \x7b\n      \"type\": \"string\",\n      \"defaultValue\": \"production\",\n      \"allowedValues\": [\"development\", \"staging\", \"production\"]\n    \x7d,\n    \"projectName\": \x7b\n      \"type\": \"string\",\n      \"defaultValue\": \""
  ++ project.name
  ++ "\",\n      \"metadata\": \x7b\n        \"description\": \"Name of the project\"\n      \x7d\n    \x7d\n  \x7d,\n  \"variables\": \x7b\n    \"location\": \"[resourceGroup().location]\",\n    \"vnetName\": \"[concat(parameters(\x27projectName\x27), \x27-vnet\x27)]\",\n    \"subnetName\": \"[concat(parameters(\x27projectName\x27), \x27-subnet\x27)]\",\n    \"nsgName\": \"[concat(parameters(\x27projectName\x27), \x27-nsg\x27)]\"\n  \x7d,\n  \"resources\": [\n    \x7b\n      \"type\": \"Microsoft.Network/virtualNetworks\",\n      \"apiVersion\": \"2021-02-01\",\n      \"name\": \"[variables(\x27vnetName\x27)]\",\n      \"location\": \"[variables(\x27location\x27)]\",\n      \"properties\": \x7b\n        \"addressSpace\": \x7b\n          \"addressPrefixes\": [\"10.0.0.0/16\"]\n        \x7d,\n        \"subnets\": [\n          \x7b\n            \"name\": \"[variables(\x27subnetName\x27)]\",\n            \"properties\": \x7b\n              \"addressPrefix\": \"10.0.1.0/24\",\n              \"networkSecurityGroup\": \x7b\n                \"id\": \"[resourceId(\x27Microsoft.Network/networkSecurityGroups\x27, variables(\x27nsgName\x27))]\"\n              \x7d\n            \x7d\n          \x7d\n        ]\n      \x7d,\n      \"dependsOn\": [\n        \"[resourceId(\x27Microsoft.Network/networkSecurityGroups\x27, variables(\x27nsgName\x27))]\"\n      ]\n    \x7d,\n    \x7b\n      \"type\": \"Microsoft.DBforPostgreSQL/servers\",\n      \"apiVersion\": \"2017-12-01\",\n      \"name\": \"[concat(parameters(\x27projectName\x27), \x27-database\x27)]\",\n      \"location\": \"[variables(\x27location\x27)]\",\n      \"sku\": \x7b\n        \"name\": \"B_Gen5_2\",\n        \"tier\": \"Basic\",\n        \"capacity\": 2,\n        \"size\": \"51200\",\n        \"family\": \"Gen5\"\n      \x7d,\n      \"properties\": \x7b\n        \"createMode\": \"Default\",\n        \"version\": \"11\",\n        \"administratorLogin\": \"dbadmin\",\n        \"administratorLoginPassword\": \"[concat(\x27P@ssw0rd\x27, uniqueString(resourceGroup().id))]\",\n        \"storageProfile\": \x7b\n          \"storageMB\": 51200,\n          \"backupRetentionDays\": 7,\n          \"geoRedundantBackup\": \"Disabled\"\n        \x7d\n      \x7d\n    \x7d\n  ],\n  \"outputs\": \x7b\n    \"vnetId\": \x7b\n      \"type\": \"string\",\n      \"value\": \"[resourceId(\x27Microsoft.Network/virtualNetworks\x27, variables(\x27vnetName\x27))]\"\n    \x7d,\n    \"databaseFQDN\": \x7b\n      \"type\": \"string\",\n      \"value\": \"[reference(resourceId(\x27Microsoft.DBforPostgreSQL/servers\x27, concat(parameters(\x27projectName\x27), \x27-database\x27))).fullyQualifiedDomainName]\"\n    \x7d\n  \x7d\n\x7d"

/-- One provider entry of the templates response. -/
structure TemplateEntry where
  name : String
  code : String
  estimatedCost : Nat
  provider : String
deriving Repr, DecidableEq

/-- The templates response object: exactly the keys `aws`, `gcp`, `azure`. -/
structure TemplatesResponse where
  aws : TemplateEntry
  gcp : TemplateEntry
  azure : TemplateEntry
deriving Repr, DecidableEq

/-- JSON responses sent by the handlers: a project (`res.json(project)`,
possibly `undefined` for the upload handler's raw flow), the templates
object, the deploy acknowledgement, the deployment-status object, or an
error (`res.status(code).json(\x7b error \x7d)`). -/
inductive Response where
  | okProject (project : Option Project)
  | okTemplates (templates : TemplatesResponse)
  | okDeploy (message : String) (project : Project)
  | okStatus (status : String) (progress : Nat)
  | err (status : Nat) (message : String)
deriving Repr, DecidableEq

/-- HTTP status of an error response, `none` for a success response. -/
def Response.errStatus : Response → Option Nat
  | .err code _ => some code
  | _ => none

/-- Whether a response is an error response. -/
def Response.isErr (r : Response) : Bool :=
  r.errStatus.isSome

/-- One request to the server, after middleware.  `create` carries the
result of `insertProjectSchema.parse` (`none` models a body the schema
rejects) and the `new Date()` oracle; `upload` carries the filenames multer
stored; `getDeploymentStatus` carries the value of
`Math.floor(Math.random() * 100)`, which lies in `[0, 99]`. -/
inductive Op where
  | create (body : Option InsertProject) (now : Nat)
  | upload (id : Nat) (files : List String)
  | putConfiguration (id : Nat) (body : JObj)
  | templates (id : Nat)
  | deploy (id : Nat) (provider : Option String)
  | getDeploymentStatus (id : Nat) (rand : Nat)
deriving Repr, DecidableEq

/-- The request handlers of `registerRoutes`, as a step function on the
store.  Each arm is the corresponding Express handler. -/
def step (s : MemStorage) (op : Op) : Response × MemStorage :=
  match op with
  | .create body now =>
    match body with
    | none => (.err 400 "Invalid project data", s)
    | some projectData =>
      let r := s.createProject projectData now
      (.okProject (some r.1), r.2)
  | .upload id files =>
    match s.getProject id with
    | none => (.err 404 "Project not found", s)
    | some project =>
      let r := s.updateProject id
        { uploadedFiles := some (some (project.uploadedFiles.getD [] ++ files)) }
      (.okProject r.1, r.2)
  | .putConfiguration id body =>
    match parseConfiguration body with
    | none => (.err 400 "Invalid configuration data", s)
    | some configuration =>
      let r := s.updateProject id { configuration := some (some configuration) }
      match r.1 with
      | none => (.err 404 "Project not found", r.2)
      | some updatedProject => (.okProject (some updatedProject), r.2)
  | .templates id =>
    match s.getProject id with
    | none => (.err 404 "Project not found", s)
    | some project =>
      let aws : TemplateEntry :=
        { name := "AWS CloudFormation", code := generateAWSTemplate project,
          estimatedCost := 247, provider := "aws" }
      let gcp : TemplateEntry :=
        { name := "Google Cloud Deployment Manager", code := generateGCPTemplate project,
          estimatedCost := 198, provider := "gcp" }
      let azure : TemplateEntry :=
        { name := "Azure Resource Manager", code := generateAzureTemplate project,
          estimatedCost := 289, provider := "azure" }
      (.okTemplates { aws := aws, gcp := gcp, azure := azure }, s)
  | .deploy id provider =>
    let r := s.updateProject id
      { selectedProvider := some provider, deploymentStatus := some "deploying" }
    match r.1 with
    | none => (.err 404 "Project not found", r.2)
    | some updatedProject => (.okDeploy "Deployment started" updatedProject, r.2)
  | .getDeploymentStatus id rand =>
    match s.getProject id with
    | none => (.err 404 "Project not found", s)
    | some project =>
      (.okStatus project.deploymentStatus
        (if project.deploymentStatus = "deploying" then rand else 100), s)

/-- Store states reachable from the fresh `MemStorage` by request handling. -/
inductive Reachable : MemStorage → Prop where
  | init : Reachable MemStorage.init
  | step (s : MemStorage) (op : Op) : Reachable s → Reachable (CloudForge.step s op).2

theorem mapGet_mapSet_self (m : List (Nat × Project)) (k : Nat) (v : Project) :
    mapGet (mapSet m k v) k = some v := by
  induction m with
  | nil => simp [mapSet, mapGet]
  | cons hd tl ih =>
    obtain ⟨a, b⟩ := hd
    by_cases hak : a = k <;> simp [mapSet, mapGet, hak, ih]

theorem mapGet_mapSet_ne (m : List (Nat × Project)) (k k' : Nat) (v : Project)
    (h : k ≠ k') : mapGet (mapSet m k v) k' = mapGet m k' := by
  induction m with
  | nil => simp [mapSet, mapGet, h]
  | cons hd tl ih =>
    obtain ⟨a, b⟩ := hd
    by_cases hak : a = k
    · subst hak
      simp [mapSet, mapGet, h]
    · simp [mapSet, mapGet, hak, ih]

theorem mapGet_eq_none_iff (m : List (Nat × Project)) (k : Nat) :
    mapGet m k = none ↔ k ∉ m.map Prod.fst := by
  induction m with
  | nil => simp [mapGet]
  | cons hd tl ih =>
    obtain ⟨a, b⟩ := hd
    by_cases hak : a = k
    · subst hak
      simp [mapGet]
    · rw [mapGet, if_neg hak, ih, List.map_cons, List.mem_cons]
      constructor
      · intro h hc
        rcases hc with hc | hc
        · exact hak hc.symm
        · exact h hc
      · intro h hc
        exact h (Or.inr hc)

theorem mapGet_mem (m : List (Nat × Project)) (k : Nat) (p : Project)
    (h : mapGet m k = some p) : (k, p) ∈ m := by
  induction m with
  | nil => simp [mapGet] at h
  | cons hd tl ih =>
    obtain ⟨a, b⟩ := hd
    by_cases hak : a = k
    · subst hak
      simp [mapGet] at h
      simp [h]
    · simp [mapGet, hak] at h
      exact List.mem_cons_of_mem _ (ih h)

theorem mem_mapSet (m : List (Nat × Project)) (k : Nat) (v : Project) (kp : Nat × Project)
    (h : kp ∈ mapSet m k v) : kp = (k, v) ∨ kp ∈ m := by
  induction m with
  | nil => simp [mapSet] at h; simp [h]
  | cons hd tl ih =>
    obtain ⟨a, b⟩ := hd
    by_cases hak : a = k
    · subst hak
      simp [mapSet] at h
      rcases h with h | h <;> simp [h]
    · simp [mapSet, hak] at h
      rcases h with h | h
      · simp [h]
      · rcases ih h with h' | h' <;> simp [h']

theorem mapSet_fst_of_get_some (m : List (Nat × Project)) (k : Nat) (v p : Project)
    (h : mapGet m k = some p) : (mapSet m k v).map Prod.fst = m.map Prod.fst := by
  induction m with
  | nil => simp [mapGet] at h
  | cons hd tl ih =>
    obtain ⟨a, b⟩ := hd
    by_cases hak : a = k
    · subst hak
      simp [mapSet]
    · simp [mapGet, hak] at h
      simp [mapSet, hak, ih h]

theorem mapSet_fst_of_get_none (m : List (Nat × Project)) (k : Nat) (v : Project)
    (h : mapGet m k = none) : (mapSet m k v).map Prod.fst = m.map Prod.fst ++ [k] := by
  induction m with
  | nil => simp [mapSet]
  | cons hd tl ih =>
    obtain ⟨a, b⟩ := hd
    by_cases hak : a = k
    · subst hak
      simp [mapGet] at h
    · simp [mapGet, hak] at h
      simp [mapSet, hak, ih h]

/-- The id bookkeeping invariant of the store: the keys of the map, in
insertion order, are strictly increasing (hence pairwise distinct and in
creation order); every stored record's `id` field equals its key; and every
key is below `currentId`. -/
def StoreInv (s : MemStorage) : Prop :=
  List.Pairwise (· < ·) (s.projects.map Prod.fst) ∧
    ∀ kp ∈ s.projects, kp.2.id = kp.1 ∧ kp.1 < s.currentId

theorem storeInv_init : StoreInv MemStorage.init := by
  constructor <;> simp [MemStorage.init]

theorem storeInv_createProject (s : MemStorage) (ins : InsertProject) (now : Nat)
    (h : StoreInv s) :
    StoreInv (s.createProject ins now).2 ∧
    (∀ kp ∈ s.projects, kp.1 < (s.createProject ins now).1.id) ∧
    (s.createProject ins now).1.id = s.currentId := by
  obtain ⟨hpw, hmem⟩ := h
  have hlt : ∀ kp ∈ s.projects, kp.1 < s.currentId := fun kp hkp => (hmem kp hkp).2
  have hnone : mapGet s.projects s.currentId = none := by
    rw [mapGet_eq_none_iff]
    intro hc
    obtain ⟨kp, hkp, hfst⟩ := List.mem_map.mp hc
    exact absurd (hfst ▸ hlt kp hkp) (lt_irrefl _)
  refine ⟨⟨?_, ?_⟩, ?_, rfl⟩
  · rw [MemStorage.createProject]
    simp only
    rw [mapSet_fst_of_get_none _ _ _ hnone]
    rw [List.pairwise_append]
    refine ⟨hpw, by simp, ?_⟩
    intro a ha b hb
    simp at hb
    subst hb
    obtain ⟨kp, hkp, hfst⟩ := List.mem_map.mp ha
    exact hfst ▸ hlt kp hkp
  · intro kp hkp
    rw [MemStorage.createProject] at hkp
    simp only at hkp
    rcases mem_mapSet _ _ _ _ hkp with heq | hmem'
    · subst heq
      exact ⟨rfl, Nat.lt_succ_self _⟩
    · exact ⟨(hmem kp hmem').1, Nat.lt_succ_of_lt (hmem kp hmem').2⟩
  · exact hlt

theorem storeInv_updateProject (s : MemStorage) (id : Nat) (u : ProjectPatch)
    (hu : u.id = none) (h : StoreInv s) : StoreInv (s.updateProject id u).2 := by
  obtain ⟨hpw, hmem⟩ := h
  rw [MemStorage.updateProject]
  cases hget : mapGet s.projects id with
  | none => exact ⟨hpw, hmem⟩
  | some p =>
    have hpid : p.id = id := (hmem (id, p) (mapGet_mem _ _ _ hget)).1
    constructor
    · simpa [mapSet_fst_of_get_some _ _ _ _ hget] using hpw
    · intro kp hkp
      simp only at hkp
      rcases mem_mapSet _ _ _ _ hkp with heq | hmem'
      · subst heq
        refine ⟨?_, (hmem (id, p) (mapGet_mem _ _ _ hget)).2⟩
        simp [applyPatch, hu, hpid]
      · exact hmem kp hmem'

theorem getProject_def (s : MemStorage) (id : Nat) :
    s.getProject id = mapGet s.projects id := rfl

theorem updateProject_of_get_none (s : MemStorage) (id : Nat) (u : ProjectPatch)
    (h : s.getProject id = none) : s.updateProject id u = (none, s) := by
  rw [getProject_def] at h
  rw [MemStorage.updateProject, h]

theorem updateProject_of_get_some (s : MemStorage) (id : Nat) (u : ProjectPatch) (p : Project)
    (h : s.getProject id = some p) :
    s.updateProject id u =
      (some (applyPatch p u), { s with projects := mapSet s.projects id (applyPatch p u) }) := by
  rw [getProject_def] at h
  rw [MemStorage.updateProject, h]

theorem storeInv_step (s : MemStorage) (op : Op) (h : StoreInv s) : StoreInv (step s op).2 := by
  cases op with
  | create body now =>
    cases body with
    | none => simpa [step] using h
    | some projectData =>
      simpa [step] using (storeInv_createProject s projectData now h).1
  | upload id files =>
    simp only [step]
    cases hget : s.getProject id with
    | none => simpa using h
    | some project =>
      simpa using storeInv_updateProject s id _ rfl h
  | putConfiguration id body =>
    simp only [step]
    cases hc : parseConfiguration body with
    | none => simpa using h
    | some c =>
      simp only
      cases hr : (s.updateProject id { configuration := some (some c) }).1 <;>
        simpa using storeInv_updateProject s id _ rfl h
  | templates id =>
    simp only [step]
    cases hget : s.getProject id with
    | none => simpa using h
    | some project => simpa using h
  | deploy id provider =>
    simp only [step]
    cases hr : (s.updateProject id
        { selectedProvider := some provider, deploymentStatus := some "deploying" }).1 <;>
      simpa using storeInv_updateProject s id _ rfl h
  | getDeploymentStatus id rand =>
    simp only [step]
    cases hget : s.getProject id with
    | none => simpa using h
    | some project => simpa using h

theorem reachable_storeInv (s : MemStorage) (h : Reachable s) : StoreInv s := by
  induction h with
  | init => exact storeInv_init
  | step s' op _ ih => exact storeInv_step s' op ih

/-- Every stored project's `deploymentStatus` is `"pending"` or
`"deploying"`. -/
def StatusInv (s : MemStorage) : Prop :=
  ∀ kp ∈ s.projects, kp.2.deploymentStatus = "pending" ∨ kp.2.deploymentStatus = "deploying"

theorem statusInv_step (s : MemStorage) (op : Op) (h : StatusInv s) : StatusInv (step s op).2 := by
  cases op with
  | create body now =>
    cases body with
    | none => simpa [step] using h
    | some projectData =>
      simp only [step]
      intro kp hkp
      simp only [MemStorage.createProject] at hkp
      rcases mem_mapSet _ _ _ _ hkp with heq | hmem'
      · subst heq
        left
        rfl
      · exact h kp hmem'
  | upload id files =>
    simp only [step]
    cases hget : s.getProject id with
    | none => simpa using h
    | some project =>
      simp only
      rw [updateProject_of_get_some s id _ project hget]
      intro kp hkp
      simp only at hkp
      rcases mem_mapSet _ _ _ _ hkp with heq | hmem'
      · subst heq
        have hmemp := h (id, project) (mapGet_mem _ _ _ ((getProject_def s id) ▸ hget))
        simpa [applyPatch] using hmemp
      · exact h kp hmem'
  | putConfiguration id body =>
    simp only [step]
    cases hc : parseConfiguration body with
    | none => simpa using h
    | some c =>
      simp only
      cases hget : s.getProject id with
      | none =>
        rw [updateProject_of_get_none s id _ hget]
        simpa using h
      | some project =>
        rw [updateProject_of_get_some s id _ project hget]
        simp only
        intro kp hkp
        simp only at hkp
        rcases mem_mapSet _ _ _ _ hkp with heq | hmem'
        · subst heq
          have hmemp := h (id, project) (mapGet_mem _ _ _ ((getProject_def s id) ▸ hget))
          simpa [applyPatch] using hmemp
        · exact h kp hmem'
  | templates id =>
    simp only [step]
    cases hget : s.getProject id with
    | none => simpa using h
    | some project => simpa using h
  | deploy id provider =>
    simp only [step]
    cases hget : s.getProject id with
    | none =>
      rw [updateProject_of_get_none s id _ hget]
      simpa using h
    | some project =>
      rw [updateProject_of_get_some s id _ project hget]
      simp only
      intro kp hkp
      simp only at hkp
      rcases mem_mapSet _ _ _ _ hkp with heq | hmem'
      · subst heq
        right
        rfl
      · exact h kp hmem'
  | getDeploymentStatus id rand =>
    simp only [step]
    cases hget : s.getProject id with
    | none => simpa using h
    | some project => simpa using h

theorem reachable_statusInv (s : MemStorage) (h : Reachable s) : StatusInv s := by
  induction h with
  | init => intro kp hkp; simp [MemStorage.init] at hkp
  | step s' op _ ih => exact statusInv_step s' op ih

theorem getProject_mapSet (m : List (Nat × Project)) (k : Nat) (v : Project) (id : Nat) :
    mapGet (mapSet m k v) id = if k = id then some v else mapGet m id := by
  by_cases h : k = id
  · subst h
    simp [mapGet_mapSet_self]
  · simp [h, mapGet_mapSet_ne _ _ _ _ h]

/-- How one request affects one stored project: either it is untouched, or
it is the project the create handler just overwrote (only possible when
`currentId` collides with an existing key), or it received the upload,
configuration or deploy patch. -/
theorem step_getProject_cases (s : MemStorage) (op : Op) (id : Nat) (p : Project)
    (hp : s.getProject id = some p) :
    (step s op).2.getProject id = some p ∨
    (∃ ins now, op = .create (some ins) now ∧ s.currentId = id ∧
      (step s op).2.getProject id = some (s.createProject ins now).1) ∨
    (∃ files, op = .upload id files ∧
      (step s op).2.getProject id =
        some (applyPatch p { uploadedFiles := some (some (p.uploadedFiles.getD [] ++ files)) })) ∨
    (∃ body c, op = .putConfiguration id body ∧ parseConfiguration body = some c ∧
      (step s op).2.getProject id = some (applyPatch p { configuration := some (some c) })) ∨
    (∃ provider, op = .deploy id provider ∧
      (step s op).2.getProject id =
        some (applyPatch p
          { selectedProvider := some provider, deploymentStatus := some "deploying" })) := by
  cases op with
  | create body now =>
    cases body with
    | none => exact Or.inl (by simpa [step] using hp)
    | some ins =>
      by_cases hc : s.currentId = id
      · refine Or.inr (Or.inl ⟨ins, now, rfl, hc, ?_⟩)
        simp only [step, MemStorage.createProject, getProject_def]
        rw [getProject_mapSet]
        simp [hc]
      · refine Or.inl ?_
        simp only [step, MemStorage.createProject, getProject_def]
        rw [getProject_mapSet]
        simp only [hc, if_false]
        exact hp
  | upload uid files =>
    cases hq : s.getProject uid with
    | none =>
      refine Or.inl ?_
      simp [step, hq, hp]
    | some q =>
      by_cases huid : uid = id
      · subst huid
        rw [hp] at hq
        injection hq with hq
        subst hq
        refine Or.inr (Or.inr (Or.inl ⟨files, rfl, ?_⟩))
        simp only [step, hp]
        rw [updateProject_of_get_some s uid _ p hp]
        simp only [getProject_def]
        rw [getProject_mapSet]
        simp
      · refine Or.inl ?_
        simp only [step, hq]
        rw [updateProject_of_get_some s uid _ q hq]
        simp only [getProject_def]
        rw [getProject_mapSet]
        simp only [huid, if_false]
        exact hp
  | putConfiguration uid body =>
    cases hc : parseConfiguration body with
    | none =>
      refine Or.inl ?_
      simp [step, hc, hp]
    | some c =>
      cases hq : s.getProject uid with
      | none =>
        refine Or.inl ?_
        simp only [step, hc]
        rw [updateProject_of_get_none s uid _ hq]
        simpa using hp
      | some q =>
        by_cases huid : uid = id
        · subst huid
          rw [hp] at hq
          injection hq with hq
          subst hq
          refine Or.inr (Or.inr (Or.inr (Or.inl ⟨body, c, rfl, hc, ?_⟩)))
          simp only [step, hc]
          rw [updateProject_of_get_some s uid _ p hp]
          simp only [getProject_def]
          rw [getProject_mapSet]
          simp
        · refine Or.inl ?_
          simp only [step, hc]
          rw [updateProject_of_get_some s uid _ q hq]
          simp only [getProject_def]
          rw [getProject_mapSet]
          simp only [huid, if_false]
          exact hp
  | templates uid =>
    refine Or.inl ?_
    cases hq : s.getProject uid <;> simp [step, hq, hp]
  | deploy uid provider =>
    cases hq : s.getProject uid with
    | none =>
      refine Or.inl ?_
      simp only [step]
      rw [updateProject_of_get_none s uid _ hq]
      simpa using hp
    | some q =>
      by_cases huid : uid = id
      · subst huid
        rw [hp] at hq
        injection hq with hq
        subst hq
        refine Or.inr (Or.inr (Or.inr (Or.inr ⟨provider, rfl, ?_⟩)))
        simp only [step]
        rw [updateProject_of_get_some s uid _ p hp]
        simp only [getProject_def]
        rw [getProject_mapSet]
        simp
      · refine Or.inl ?_
        simp only [step]
        rw [updateProject_of_get_some s uid _ q hq]
        simp only [getProject_def]
        rw [getProject_mapSet]
        simp only [huid, if_false]
        exact hp
  | getDeploymentStatus uid rand =>
    refine Or.inl ?_
    cases hq : s.getProject uid <;> simp [step, hq, hp]

/-- A sample parsed create body, used to build concrete reachable states. -/
def insEx : InsertProject :=
  { name := "demo", description := "a demo project", techStack := none,
    expectedUsers := "1-100", uploadedFiles := none, configuration := none,
    selectedProvider := none }

/-- The store after one successful create request on a fresh server. -/
def stateEx1 : MemStorage := (step MemStorage.init (.create (some insEx) 0)).2

theorem reachable_stateEx1 : Reachable stateEx1 :=
  Reachable.step _ _ Reachable.init

/-- Claim C1: at every reachable store state the id bookkeeping invariant
holds — the keys of the map, in insertion (= creation) order, are strictly
increasing, hence unique, each stored record's `id` equals its key, and all
keys are below `currentId` — a further `createProject` assigns
`id = currentId`, strictly greater than every stored id, and preserves the
invariant; and `updateProject`, as every handler calls it (no `id` field in
the patch), changes neither the key set nor the invariant.  `getProject` and
`getAllProjects` are pure reads of the state and return no new state at
all. -/
theorem createProject_ids_strictly_increasing_unique (s : MemStorage) (h : Reachable s) :
    StoreInv s ∧
    (∀ ins now, (∀ kp ∈ s.projects, kp.1 < (s.createProject ins now).1.id) ∧
      (s.createProject ins now).1.id = s.currentId ∧
      StoreInv (s.createProject ins now).2) ∧
    (∀ id u, u.id = none →
      (s.updateProject id u).2.projects.map Prod.fst = s.projects.map Prod.fst ∧
      StoreInv (s.updateProject id u).2) := by
  have hinv := reachable_storeInv s h
  refine ⟨hinv, ?_, ?_⟩
  · intro ins now
    obtain ⟨h1, h2, h3⟩ := storeInv_createProject s ins now hinv
    exact ⟨h2, h3, h1⟩
  · intro id u hu
    refine ⟨?_, storeInv_updateProject s id u hu hinv⟩
    cases hget : s.getProject id with
    | none => rw [updateProject_of_get_none s id u hget]
    | some p =>
      rw [updateProject_of_get_some s id u p hget]
      exact mapSet_fst_of_get_some _ _ _ _ ((getProject_def s id) ▸ hget)

/-- Witness for C1: on the store holding one project (id 1), a second create
assigns id 2 and the invariant still holds. -/
theorem createProject_ids_witness :
    (stateEx1.createProject insEx 1).1.id = 2 ∧ StoreInv (stateEx1.createProject insEx 1).2 := by
  have h := createProject_ids_strictly_increasing_unique stateEx1 reachable_stateEx1
  obtain ⟨-, h2, -⟩ := h
  obtain ⟨-, hid, hinv⟩ := h2 insEx 1
  exact ⟨hid.trans rfl, hinv⟩

/-- Claim C2 counterexample: with an empty store, project id 1 is absent,
yet `PUT /api/projects/1/configuration` with an empty body responds 400
("Invalid configuration data"), not 404, because the handler parses the
body before looking the project up. -/
theorem putConfiguration_absent_id_not_404 :
    MemStorage.init.getProject 1 = none ∧
    (step MemStorage.init (.putConfiguration 1 [])).1.errStatus = some 400 ∧
    (step MemStorage.init (.putConfiguration 1 [])).1.errStatus ≠ some 404 := by
  refine ⟨rfl, rfl, by decide⟩

/-- Claim C2 (amended): every handler that produces an error response leaves
the store exactly unchanged; and every id-keyed handler responds 404 to an
absent project id whenever the rest of the request is valid — for the
configuration handler this means a body accepted by `configurationSchema`,
since an invalid body yields 400 before the id is consulted. -/
theorem error_responses_persist_no_side_effects :
    (∀ s op, (step s op).1.isErr = true → (step s op).2 = s) ∧
    (∀ s id files, s.getProject id = none →
      step s (.upload id files) = (.err 404 "Project not found", s)) ∧
    (∀ s id body c, parseConfiguration body = some c → s.getProject id = none →
      step s (.putConfiguration id body) = (.err 404 "Project not found", s)) ∧
    (∀ s id, s.getProject id = none →
      step s (.templates id) = (.err 404 "Project not found", s)) ∧
    (∀ s id provider, s.getProject id = none →
      step s (.deploy id provider) = (.err 404 "Project not found", s)) ∧
    (∀ s id rand, s.getProject id = none →
      step s (.getDeploymentStatus id rand) = (.err 404 "Project not found", s)) := by
  refine ⟨?_, ?_, ?_, ?_, ?_, ?_⟩
  · intro s op herr
    cases op with
    | create body now =>
      cases body with
      | none => rfl
      | some ins => simp [step, Response.isErr, Response.errStatus] at herr
    | upload id files =>
      cases hget : s.getProject id with
      | none => simp [step, hget]
      | some p => simp [step, hget, Response.isErr, Response.errStatus] at herr
    | putConfiguration id body =>
      cases hc : parseConfiguration body with
      | none => simp [step, hc]
      | some c =>
        cases hget : s.getProject id with
        | none =>
          simp only [step, hc]
          rw [updateProject_of_get_none s id _ hget]
        | some p =>
          simp only [step, hc] at herr
          rw [updateProject_of_get_some s id _ p hget] at herr
          simp [Response.isErr, Response.errStatus] at herr
    | templates id =>
      cases hget : s.getProject id with
      | none => simp [step, hget]
      | some p => simp [step, hget, Response.isErr, Response.errStatus] at herr
    | deploy id provider =>
      cases hget : s.getProject id with
      | none =>
        simp only [step]
        rw [updateProject_of_get_none s id _ hget]
      | some p =>
        simp only [step] at herr
        rw [updateProject_of_get_some s id _ p hget] at herr
        simp [Response.isErr, Response.errStatus] at herr
    | getDeploymentStatus id rand =>
      cases hget : s.getProject id with
      | none => simp [step, hget]
      | some p => simp [step, hget, Response.isErr, Response.errStatus] at herr
  · intro s id files h
    simp [step, h]
  · intro s id body c hc h
    simp only [step, hc]
    rw [updateProject_of_get_none s id _ h]
  · intro s id h
    simp [step, h]
  · intro s id provider h
    simp only [step]
    rw [updateProject_of_get_none s id _ h]
  · intro s id rand h
    simp [step, h]

/-- Witness for C2 (amended): the templates handler 404s on the empty store,
and a create with an invalid body (an error response) leaves the one-project
store unchanged. -/
theorem error_responses_witness :
    step MemStorage.init (.templates 1) = (.err 404 "Project not found", MemStorage.init) ∧
    (step stateEx1 (.create none 5)).2 = stateEx1 := by
  have h := error_responses_persist_no_side_effects
  exact ⟨h.2.2.2.1 MemStorage.init 1 rfl, h.1 stateEx1 (.create none 5) rfl⟩

/-- Claim C8: every project is created with `deploymentStatus = "pending"`
whatever the request body holds (the schema does not even pick the field and
`createProject` hard-codes it), the created record is stored under its id,
and no handler ever deletes a stored project: an id present before a request
is still bound to a record after it. -/
theorem projects_created_pending_never_deleted :
    (∀ (s : MemStorage) (ins : InsertProject) (now : Nat),
      (s.createProject ins now).1.deploymentStatus = "pending" ∧
      (s.createProject ins now).2.getProject (s.createProject ins now).1.id =
        some (s.createProject ins now).1) ∧
    (∀ (s : MemStorage) (op : Op) (id : Nat) (p : Project), s.getProject id = some p →
      ((step s op).2.getProject id).isSome = true) := by
  constructor
  · intro s ins now
    refine ⟨rfl, ?_⟩
    exact mapGet_mapSet_self s.projects s.currentId _
  · intro s op id p hp
    rcases step_getProject_cases s op id p hp with
      h | ⟨ins, now, _, _, h⟩ | ⟨files, _, h⟩ | ⟨body, c, _, _, h⟩ | ⟨provider, _, h⟩ <;>
      simp [h]

/-- Witness for C8: the first created project has status "pending", and id 1
survives a deploy request. -/
theorem projects_never_deleted_witness :
    (MemStorage.init.createProject insEx 0).1.deploymentStatus = "pending" ∧
    ((step stateEx1 (.deploy 1 (some "aws"))).2.getProject 1).isSome = true := by
  have h := projects_created_pending_never_deleted
  exact ⟨(h.1 MemStorage.init insEx 0).1,
    h.2 stateEx1 (.deploy 1 (some "aws")) 1 (MemStorage.init.createProject insEx 0).1 rfl⟩

theorem applyPatch_uploadedFiles (p : Project) (v : Option (List String)) :
    applyPatch p { uploadedFiles := some v } = { p with uploadedFiles := v } := rfl

theorem applyPatch_configuration (p : Project) (v : Option JObj) :
    applyPatch p { configuration := some v } = { p with configuration := v } := rfl

theorem applyPatch_deploy (p : Project) (v : Option String) :
    applyPatch p { selectedProvider := some v, deploymentStatus := some "deploying" } =
      { p with selectedProvider := v, deploymentStatus := "deploying" } := rfl

/-- The result of a successful `configurationSchema.parse` carries exactly
the schema's keys, in order: nothing else survives into it. -/
theorem parseConfiguration_keys (body : JObj) (c : JObj)
    (h : parseConfiguration body = some c) : c.map Prod.fst = configurationKeys := by
  rw [parseConfiguration] at h
  obtain ⟨v1, h1, h⟩ := Option.bind_eq_some.mp h
  obtain ⟨v2, h2, h⟩ := Option.bind_eq_some.mp h
  obtain ⟨v3, h3, h⟩ := Option.bind_eq_some.mp h
  obtain ⟨v4, h4, h⟩ := Option.bind_eq_some.mp h
  obtain ⟨v5, h5, h⟩ := Option.bind_eq_some.mp h
  obtain ⟨v6, h6, h⟩ := Option.bind_eq_some.mp h
  obtain ⟨v7, h7, h⟩ := Option.bind_eq_some.mp h
  obtain ⟨v8, h8, h⟩ := Option.bind_eq_some.mp h
  obtain ⟨v9, h9, h⟩ := Option.bind_eq_some.mp h
  obtain ⟨v10, h10, h⟩ := Option.bind_eq_some.mp h
  obtain ⟨v11, h11, h⟩ := Option.bind_eq_some.mp h
  obtain ⟨v12, h12, h⟩ := Option.bind_eq_some.mp h
  injection h with h
  subst h
  rfl

/-- A sample stored project: the record created by the first create request. -/
def projEx : Project := (MemStorage.init.createProject insEx 0).1

/-- A project with the given list stored in `uploadedFiles`. -/
def withFileList (p : Project) (l : List String) : Project :=
  { p with uploadedFiles := some l }

/-- Claim C3: a successful upload to an existing project responds with, and
stores, the project whose `uploadedFiles` is the previous list (the empty
list when it was null) with the new file names appended at the end, all
other fields unchanged; and across every handler, the old file list of any
surviving project is a prefix of its new file list — no reference is ever
removed or replaced and no operation shrinks the list. -/
theorem upload_appends_never_replaces :
    (∀ (s : MemStorage) (id : Nat) (p : Project) (files : List String),
      s.getProject id = some p →
      step s (.upload id files) =
        (.okProject (some (withFileList p (p.uploadedFiles.getD [] ++ files))),
         { s with projects := mapSet s.projects id (withFileList p (p.uploadedFiles.getD [] ++ files)) })) ∧
    (∀ (s : MemStorage), Reachable s → ∀ (op : Op) (id : Nat) (p p' : Project),
      s.getProject id = some p → (step s op).2.getProject id = some p' →
      p.uploadedFiles.getD [] <+: p'.uploadedFiles.getD []) := by
  constructor
  · intro s id p files hp
    simp only [step, hp]
    rw [updateProject_of_get_some s id _ p hp]
    rfl
  · intro s hreach op id p p' hp hp'
    rcases step_getProject_cases s op id p hp with
      hcase | ⟨ins, now, hop, hcid, hcase⟩ | ⟨files, hop, hcase⟩ |
      ⟨body, c, hop, hcp, hcase⟩ | ⟨provider, hop, hcase⟩
    · have e : p' = p := Option.some_inj.mp (hp'.symm.trans hcase)
      subst e
      exact List.prefix_rfl
    · have hmem := (reachable_storeInv s hreach).2 (id, p)
        (mapGet_mem _ _ _ ((getProject_def s id) ▸ hp))
      rw [hcid] at hmem
      exact absurd hmem.2 (lt_irrefl id)
    · have e : p' = applyPatch p
          { uploadedFiles := some (some (p.uploadedFiles.getD [] ++ files)) } :=
        Option.some_inj.mp (hp'.symm.trans hcase)
      rw [e, applyPatch_uploadedFiles]
      exact List.prefix_append _ _
    · have e : p' = applyPatch p { configuration := some (some c) } :=
        Option.some_inj.mp (hp'.symm.trans hcase)
      rw [e, applyPatch_configuration]
    · have e : p' = applyPatch p
          { selectedProvider := some provider, deploymentStatus := some "deploying" } :=
        Option.some_inj.mp (hp'.symm.trans hcase)
      rw [e, applyPatch_deploy]

/-- Witness for C3: uploading one file to the fresh project (null file list)
stores the one-element list, and the old list is a prefix of the new. -/
theorem upload_appends_witness :
    (step stateEx1 (.upload 1 ["a.png"])).1 =
      .okProject (some { projEx with uploadedFiles := some ["a.png"] }) ∧
    projEx.uploadedFiles.getD [] <+:
      ({ projEx with uploadedFiles := some ["a.png"] } : Project).uploadedFiles.getD [] := by
  have h := upload_appends_never_replaces
  constructor
  · rw [h.1 stateEx1 1 projEx ["a.png"] rfl]
    rfl
  · exact h.2 stateEx1 reachable_stateEx1 (.upload 1 ["a.png"]) 1 projEx
      { projEx with uploadedFiles := some ["a.png"] } rfl
      (by rw [h.1 stateEx1 1 projEx ["a.png"] rfl]; rfl)

/-- Whether an operation is a deploy request for the given project id. -/
def Op.isDeployFor (op : Op) (id : Nat) : Bool :=
  match op with
  | .deploy i _ => i = id
  | _ => false

/-- Claim C4: over reachable states, a stored project's `deploymentStatus`
either survives a request unchanged, or moves from `"pending"` to
`"deploying"`, and only the deploy endpoint for that project does the
latter; in particular nothing ever moves a status away from
`"deploying"`. -/
theorem deployment_status_only_pending_to_deploying (s : MemStorage) (h : Reachable s)
    (op : Op) (id : Nat) (p p' : Project) (hp : s.getProject id = some p)
    (hp' : (step s op).2.getProject id = some p') :
    p'.deploymentStatus = p.deploymentStatus ∨
    (p.deploymentStatus = "pending" ∧ p'.deploymentStatus = "deploying" ∧
      op.isDeployFor id = true) := by
  rcases step_getProject_cases s op id p hp with
    hcase | ⟨ins, now, hop, hcid, hcase⟩ | ⟨files, hop, hcase⟩ |
    ⟨body, c, hop, hcp, hcase⟩ | ⟨provider, hop, hcase⟩
  · have e : p' = p := Option.some_inj.mp (hp'.symm.trans hcase)
    subst e
    exact Or.inl rfl
  · have hmem := (reachable_storeInv s h).2 (id, p)
      (mapGet_mem _ _ _ ((getProject_def s id) ▸ hp))
    rw [hcid] at hmem
    exact absurd hmem.2 (lt_irrefl id)
  · have e : p' = applyPatch p
        { uploadedFiles := some (some (p.uploadedFiles.getD [] ++ files)) } :=
      Option.some_inj.mp (hp'.symm.trans hcase)
    rw [e, applyPatch_uploadedFiles]
    exact Or.inl rfl
  · have e : p' = applyPatch p { configuration := some (some c) } :=
      Option.some_inj.mp (hp'.symm.trans hcase)
    rw [e, applyPatch_configuration]
    exact Or.inl rfl
  · have e : p' = applyPatch p
        { selectedProvider := some provider, deploymentStatus := some "deploying" } :=
      Option.some_inj.mp (hp'.symm.trans hcase)
    rcases reachable_statusInv s h (id, p)
        (mapGet_mem _ _ _ ((getProject_def s id) ▸ hp)) with hpend | hdep
    · refine Or.inr ⟨hpend, ?_, ?_⟩
      · rw [e, applyPatch_deploy]
      · rw [hop]
        simp [Op.isDeployFor]
    · refine Or.inl ?_
      rw [e, applyPatch_deploy, hdep]

/-- The project after deploying `projEx` with provider "aws". -/
def projExDeployed : Project :=
  { projEx with selectedProvider := some "aws", deploymentStatus := "deploying" }

/-- Witness for C4: deploying the fresh pending project moves its status
from "pending" to "deploying" via the deploy endpoint. -/
theorem deployment_status_witness :
    projExDeployed.deploymentStatus = projEx.deploymentStatus ∨
    (projEx.deploymentStatus = "pending" ∧ projExDeployed.deploymentStatus = "deploying" ∧
      (Op.deploy 1 (some "aws")).isDeployFor 1 = true) :=
  deployment_status_only_pending_to_deploying stateEx1 reachable_stateEx1
    (.deploy 1 (some "aws")) 1 projEx projExDeployed rfl rfl

/-- Claim C5: for an existing project and a body accepted by
`configurationSchema`, the configuration handler stores and returns the
project whose `configuration` is exactly the parsed payload — the previous
configuration does not contribute, and the parsed payload carries exactly
the schema keys, so keys absent from it do not survive — with every other
field unchanged. -/
theorem putConfiguration_replaces_wholesale (s : MemStorage) (id : Nat) (body : JObj)
    (c : JObj) (p : Project) (hc : parseConfiguration body = some c)
    (hp : s.getProject id = some p) :
    step s (.putConfiguration id body) =
      (.okProject (some { p with configuration := some c }),
        { s with projects := mapSet s.projects id { p with configuration := some c } }) ∧
    c.map Prod.fst = configurationKeys := by
  constructor
  · simp only [step, hc]
    rw [updateProject_of_get_some s id _ p hp]
    rw [applyPatch_configuration]
  · exact parseConfiguration_keys body c hc

/-- A configuration request body: the twelve schema keys plus a stray
thirteenth key that the parse strips. -/
def cfgBodyEx : JObj :=
  [("concurrentUsers", .jstr "100"), ("responseTime", .jstr "200ms"),
   ("databaseType", .jstr "postgres"), ("dataVolume", .jstr "10GB"),
   ("autoBackups", .jbool true), ("sslCertificate", .jstr "auto"),
   ("region", .jstr "us-east-1"), ("ddosProtection", .jbool true),
   ("gdprCompliance", .jbool false), ("monitoring", .jbool true),
   ("autoScaling", .jstr "auto"), ("environmentStrategy", .jstr "single"),
   ("legacyKey", .jstr "old")]

/-- The parse of `cfgBodyEx`: exactly the twelve schema keys. -/
def cfgEx : JObj :=
  [("concurrentUsers", .jstr "100"), ("responseTime", .jstr "200ms"),
   ("databaseType", .jstr "postgres"), ("dataVolume", .jstr "10GB"),
   ("autoBackups", .jbool true), ("sslCertificate", .jstr "auto"),
   ("region", .jstr "us-east-1"), ("ddosProtection", .jbool true),
   ("gdprCompliance", .jbool false), ("monitoring", .jbool true),
   ("autoScaling", .jstr "auto"), ("environmentStrategy", .jstr "single")]

/-- Witness for C5: updating the fresh project's configuration with
`cfgBodyEx` stores exactly the parsed twelve-key object. -/
theorem putConfiguration_witness :
    (step stateEx1 (.putConfiguration 1 cfgBodyEx)).1 =
      .okProject (some { projEx with configuration := some cfgEx }) ∧
    cfgEx.map Prod.fst = configurationKeys := by
  have h := putConfiguration_replaces_wholesale stateEx1 1 cfgBodyEx cfgEx projEx rfl rfl
  exact ⟨by rw [h.1], h.2⟩

/-- The templates response object built by the templates handler. -/
def templatesFor (p : Project) : TemplatesResponse :=
  { aws := { name := "AWS CloudFormation", code := generateAWSTemplate p,
             estimatedCost := 247, provider := "aws" }
    gcp := { name := "Google Cloud Deployment Manager", code := generateGCPTemplate p,
             estimatedCost := 198, provider := "gcp" }
    azure := { name := "Azure Resource Manager", code := generateAzureTemplate p,
               estimatedCost := 289, provider := "azure" } }

theorem generateAWSTemplate_ne_empty (p : Project) : generateAWSTemplate p ≠ "" := by
  intro h
  have h2 := congrArg String.length h
  simp only [generateAWSTemplate, String.length_append, String.length_empty] at h2
  have h3 := Nat.eq_zero_of_add_eq_zero_right (Nat.eq_zero_of_add_eq_zero_right h2)
  exact absurd h3 (by decide)

set_option maxRecDepth 20000 in
theorem generateGCPTemplate_ne_empty (p : Project) : generateGCPTemplate p ≠ "" := by
  intro h
  have h2 := congrArg String.length h
  simp only [generateGCPTemplate, String.length_append, String.length_empty] at h2
  have h3 := Nat.eq_zero_of_add_eq_zero_right (Nat.eq_zero_of_add_eq_zero_right
    (Nat.eq_zero_of_add_eq_zero_right (Nat.eq_zero_of_add_eq_zero_right h2)))
  exact absurd h3 (by decide)

set_option maxRecDepth 20000 in
theorem generateAzureTemplate_ne_empty (p : Project) : generateAzureTemplate p ≠ "" := by
  intro h
  have h2 := congrArg String.length h
  simp only [generateAzureTemplate, String.length_append, String.length_empty] at h2
  have h3 := Nat.eq_zero_of_add_eq_zero_right (Nat.eq_zero_of_add_eq_zero_right h2)
  exact absurd h3 (by decide)

/-- Claim C6: for an existing project, the templates handler leaves the
store untouched and responds with exactly the three entries keyed `aws`,
`gcp` and `azure`, whose names and estimated costs are fixed at
"AWS CloudFormation"/247, "Google Cloud Deployment Manager"/198 and
"Azure Resource Manager"/289, and whose template code strings are the
generated, non-empty templates. -/
theorem templates_three_fixed_entries (s : MemStorage) (id : Nat) (p : Project)
    (hp : s.getProject id = some p) :
    step s (.templates id) = (.okTemplates (templatesFor p), s) ∧
    (templatesFor p).aws.name = "AWS CloudFormation" ∧
    (templatesFor p).aws.estimatedCost = 247 ∧
    (templatesFor p).aws.code = generateAWSTemplate p ∧
    (templatesFor p).aws.code ≠ "" ∧
    (templatesFor p).gcp.name = "Google Cloud Deployment Manager" ∧
    (templatesFor p).gcp.estimatedCost = 198 ∧
    (templatesFor p).gcp.code = generateGCPTemplate p ∧
    (templatesFor p).gcp.code ≠ "" ∧
    (templatesFor p).azure.name = "Azure Resource Manager" ∧
    (templatesFor p).azure.estimatedCost = 289 ∧
    (templatesFor p).azure.code = generateAzureTemplate p ∧
    (templatesFor p).azure.code ≠ "" := by
  refine ⟨?_, rfl, rfl, rfl, generateAWSTemplate_ne_empty p, rfl, rfl, rfl,
    generateGCPTemplate_ne_empty p, rfl, rfl, rfl, generateAzureTemplate_ne_empty p⟩
  simp only [step, hp]
  rfl

/-- Witness for C6: the templates request on the one-project store. -/
theorem templates_witness :
    step stateEx1 (.templates 1) = (.okTemplates (templatesFor projEx), stateEx1) ∧
    (templatesFor projEx).aws.estimatedCost = 247 ∧
    (templatesFor projEx).aws.code ≠ "" := by
  have h := templates_three_fixed_entries stateEx1 1 projEx rfl
  exact ⟨h.1, h.2.2.1, h.2.2.2.2.1⟩

/-- Claim C7: the multer middleware accepts a multipart request exactly when
it carries at most five files, each of MIME type PNG, JPEG (under either
spelling the code allows) or PDF and of size at most 10MB = 10485760
bytes. -/
theorem upload_accepted_iff_bounds (files : List UploadFile) :
    uploadMiddlewareAccepts files = true ↔
      files.length ≤ 5 ∧ ∀ f ∈ files,
        (f.mimetype = "image/png" ∨ f.mimetype = "image/jpeg" ∨
          f.mimetype = "image/jpg" ∨ f.mimetype = "application/pdf") ∧
        f.size ≤ 10485760 := by
  simp only [uploadMiddlewareAccepts, maxUploadFiles, fileSizeLimit, fileFilterAccepts,
    allowedTypes, Bool.and_eq_true, List.all_eq_true, decide_eq_true_eq]
  constructor
  · rintro ⟨h1, h2⟩
    refine ⟨h1, fun f hf => ?_⟩
    rcases h2 f hf with ⟨hc, hs⟩
    refine ⟨?_, hs⟩
    simpa using hc
  · rintro ⟨h1, h2⟩
    refine ⟨h1, fun f hf => ?_⟩
    rcases h2 f hf with ⟨hc, hs⟩
    refine ⟨?_, hs⟩
    simpa using hc

/-- The store after create then deploy: one project in status "deploying". -/
def stateEx2 : MemStorage := (step stateEx1 (.deploy 1 (some "aws"))).2

theorem reachable_stateEx2 : Reachable stateEx2 :=
  Reachable.step _ _ reachable_stateEx1

/-- Claim C9: the deployment-status handler never changes the store; for an
existing project whose status is not "deploying" — a fresh "pending"
project included — it reports progress exactly 100; for a "deploying"
project it reports the status together with progress
`rand = Math.floor(Math.random()*100)`, which lies in 0..99. -/
theorem deployment_status_progress (s : MemStorage) (id : Nat) (p : Project) (rand : Nat)
    (hp : s.getProject id = some p) (hrand : rand ≤ 99) :
    (step s (.getDeploymentStatus id rand)).2 = s ∧
    (p.deploymentStatus ≠ "deploying" →
      (step s (.getDeploymentStatus id rand)).1 = .okStatus p.deploymentStatus 100) ∧
    (p.deploymentStatus = "deploying" →
      (step s (.getDeploymentStatus id rand)).1 = .okStatus "deploying" rand ∧
        rand ≤ 99) := by
  refine ⟨by simp [step, hp], ?_, ?_⟩
  · intro hne
    simp [step, hp, hne]
  · intro heq
    refine ⟨by simp [step, hp, heq], hrand⟩

/-- Witness for C9: a pending project reports progress 100; after a deploy,
the same project reports status "deploying" with the random draw 7. -/
theorem deployment_status_progress_witness :
    (step stateEx1 (.getDeploymentStatus 1 42)).1 = .okStatus "pending" 100 ∧
    (step stateEx2 (.getDeploymentStatus 1 7)).1 = .okStatus "deploying" 7 := by
  have h1 := deployment_status_progress stateEx1 1 projEx 42 rfl (by decide)
  have h2 := deployment_status_progress stateEx2 1 projExDeployed 7 rfl (by decide)
  exact ⟨h1.2.1 (by decide), (h2.2.2 rfl).1⟩

/-- Claim C10: a create whose parsed body omits `uploadedFiles` or carries a
non-array value stores and returns the project with a null (`none`) file
list — not the empty list — and a subsequent upload to it treats the null
list as empty: it stores exactly the uploaded file names. -/
theorem createProject_null_files_then_upload (s : MemStorage) (ins : InsertProject)
    (now : Nat) (h : ins.uploadedFiles = none ∨ ins.uploadedFiles = some .notArr) :
    (s.createProject ins now).1.uploadedFiles = none ∧
    ((s.createProject ins now).2.getProject (s.createProject ins now).1.id =
      some (s.createProject ins now).1) ∧
    (∀ files : List String,
      (step (s.createProject ins now).2
          (.upload (s.createProject ins now).1.id files)).2.getProject
        (s.createProject ins now).1.id =
        some (withFileList (s.createProject ins now).1 files)) := by
  have h1 : (s.createProject ins now).1.uploadedFiles = none := by
    rcases h with h | h <;> simp [MemStorage.createProject, h]
  have h2 : (s.createProject ins now).2.getProject (s.createProject ins now).1.id =
      some (s.createProject ins now).1 :=
    mapGet_mapSet_self s.projects s.currentId _
  refine ⟨h1, h2, ?_⟩
  intro files
  simp only [step, h2]
  rw [updateProject_of_get_some _ _ _ _ h2]
  simp only [getProject_def]
  rw [getProject_mapSet]
  rw [if_pos rfl, h1]
  rfl

/-- A create body carrying a non-array `uploadedFiles` value. -/
def insNoArr : InsertProject := { insEx with uploadedFiles := some .notArr }

/-- Witness for C10: creating with a non-array `uploadedFiles` yields a null
list, and uploading one file afterwards stores exactly that file. -/
theorem createProject_null_files_witness :
    (MemStorage.init.createProject insNoArr 0).1.uploadedFiles = none ∧
    (step (MemStorage.init.createProject insNoArr 0).2 (.upload 1 ["x.pdf"])).2.getProject 1 =
      some (withFileList (MemStorage.init.createProject insNoArr 0).1 ["x.pdf"]) := by
  have h := createProject_null_files_then_upload MemStorage.init insNoArr 0 (Or.inr rfl)
  exact ⟨h.1, h.2.2 ["x.pdf"]⟩

end CloudForge
